import Mathlib

/-!
# Verification of the support-ticket triage backend

A shallow embedding, in Lean 4, of the triage backend of this repository:

* `sentiment.js`          — lexical sentiment classifier (`analyzeSentiment`);
* `sla.js`                — SLA calculator (`computeSLA`);
* `faqService.js`         — cosine similarity and the FAQ matcher (`checkFaq`);
* `caseMemory.js`         — case-memory indexing and similarity search;
* `formatCaseMemory.js`   — reply synthesis from a case-memory blob;
* `server.js`             — the `/api/chat` triage pipeline, the agent-response
  endpoint `/api/case/:id/response`, and the agent-only lock helpers.

Modelling conventions, used throughout:

* JavaScript numbers are idealised: exact rationals (`ℚ`) for scores that the
  code compares and stores, reals (`ℝ`) for quantities produced with
  `Math.sqrt`.  Timestamps and TTLs are elided: the agent-only lock becomes a
  set of case ids (`List ℕ`), membership meaning "currently active".
* External collaborators (Mongo, Redis, the embedding and generative-text
  APIs, socket.io) are modelled by explicit state (`ServerState`), by
  environments recording each call's outcome (`ChatEnv`, `FaqEnv`, `MemEnv`),
  and by a list of emitted `Event`s.  Fallible calls are `Except` values; a
  JavaScript `try`/`catch` becomes a `match` on the `Except`.
* Mongo documents become structures; `_id` becomes `id : ℕ`.  The JavaScript
  string `"open"` is rendered as `Status.opened` (`open` is a Lean keyword).
* `String.prototype.includes` / `toLowerCase` are modelled character-wise on
  `List Char`.
-/

namespace Triage

/-! ## JavaScript string helpers -/

/-- `startsWithL needle hay`: `hay` begins with `needle` (character lists). -/
def startsWithL : List Char → List Char → Bool
  | [], _ => true
  | _ :: _, [] => false
  | a :: as, b :: bs => a == b && startsWithL as bs

/-- `containsSeq needle hay`: `needle` occurs contiguously in `hay`. -/
def containsSeq (needle : List Char) : List Char → Bool
  | [] => needle.isEmpty
  | c :: cs => startsWithL needle (c :: cs) || containsSeq needle cs

/-- Model of JavaScript `hay.includes(needle)` on a pre-listed haystack. -/
def jsIncludes (hay : List Char) (needle : String) : Bool :=
  containsSeq needle.toList hay

/-- Model of JavaScript `s.toLowerCase()` (ASCII lowering suffices here). -/
def lowerStr (s : String) : List Char :=
  s.toList.map Char.toLower

/-! ## `sentiment.js` -/

/-- `ANGER_WORDS` from `sentiment.js`. -/
def ANGER_WORDS : List String :=
  ["angry", "furious", "frustrated", "worst", "nonsense", "cheated",
   "wtf", "hate", "mad", "ridiculous", "disgusting", "scam", "fraud",
   "terrible", "immediately"]

/-- `CALM_WORDS` from `sentiment.js`. -/
def CALM_WORDS : List String :=
  ["please", "thank", "thanks", "could you", "may i", "no hurry",
   "whenever", "take your time", "ok", "cool", "fine"]

inductive SentimentLabel
  | angry
  | neutral
  | cool
deriving DecidableEq, Repr

structure SentimentResult where
  label : SentimentLabel
  score : ℚ
deriving DecidableEq, Repr

/-- The raw (pre-clamp) score computed by the loops of `analyzeSentiment`,
in tenths (every weight of the source is a multiple of 0.1, so scoring in
tenths over `ℤ` is an exact rescaling): each matched anger word subtracts 1
(10 tenths), each matched calm word adds 0.6 (6 tenths), `!!!`/`?!?!`
subtracts 0.6, `:)` adds 0.3, `:(` subtracts 0.3. -/
def rawScore10 (text : String) : ℤ :=
  let t := lowerStr text
  let s0 : ℤ := ANGER_WORDS.foldl (fun s w => if jsIncludes t w then s - 10 else s) 0
  let s1 : ℤ := CALM_WORDS.foldl (fun s w => if jsIncludes t w then s + 6 else s) s0
  let s2 : ℤ := if jsIncludes t "!!!" || jsIncludes t "?!?!" then s1 - 6 else s1
  let s3 : ℤ := if jsIncludes t ":)" then s2 + 3 else s2
  if jsIncludes t ":(" then s3 - 3 else s3

/-- `analyzeSentiment` from `sentiment.js`: label from the unclamped score
(`≤ −0.8 → angry`, i.e. `≤ −8` tenths; `≥ 0.6 → cool`, i.e. `≥ 6` tenths;
else neutral), returned score clamped to `[-1, 1]`. -/
def analyzeSentiment (text : String) : SentimentResult :=
  let s10 := rawScore10 text
  { label :=
      if s10 ≤ -8 then SentimentLabel.angry
      else if 6 ≤ s10 then SentimentLabel.cool
      else SentimentLabel.neutral,
    score := max (-1) (min 1 ((s10 : ℚ) / 10)) }

/-! ## `sla.js` -/

inductive Priority
  | high
  | low
deriving DecidableEq, Repr

inductive SLALevel
  | express
  | standard
  | batched
deriving DecidableEq, Repr

structure SLAResult where
  level : SLALevel
  targetMinutes : ℕ
deriving DecidableEq, Repr

/-- Default of the `SLA_FAST_MIN` environment variable (minutes). -/
def SLA_FAST_MIN : ℕ := 15

/-- Default of the `SLA_STD_MIN` environment variable (minutes). -/
def SLA_STD_MIN : ℕ := 60

/-- Default of the `SLA_SLOW_MIN` environment variable (minutes). -/
def SLA_SLOW_MIN : ℕ := 180

/-- `computeSLA` from `sla.js`, at the default target minutes. -/
def computeSLA (priority : Priority) (sentiment : SentimentLabel) : SLAResult :=
  if sentiment = SentimentLabel.angry then ⟨SLALevel.express, SLA_FAST_MIN⟩
  else if priority = Priority.high then ⟨SLALevel.express, SLA_FAST_MIN⟩
  else if sentiment = SentimentLabel.cool then ⟨SLALevel.batched, SLA_SLOW_MIN⟩
  else ⟨SLALevel.standard, SLA_STD_MIN⟩

/-! ## Cosine similarity (`faqService.js` and its duplicate in `caseMemory.js`)

The source loop runs `for (i = 0; i < Math.min(a.length, b.length); i++)`
accumulating `dot`, `na`, `nb`; `List.zipWith` truncates to the shorter list
in exactly the same way. -/

/-- The `dot` accumulator: `Σ a[i]·b[i]` over the shared-length prefix. -/
def dotProd (a b : List ℝ) : ℝ :=
  (List.zipWith (fun x y => x * y) a b).sum

/-- The `na` accumulator: `Σ a[i]²` over the shared-length prefix. -/
def sumSqFst (a b : List ℝ) : ℝ :=
  (List.zipWith (fun x _ => x * x) a b).sum

/-- The `nb` accumulator: `Σ b[i]²` over the shared-length prefix. -/
def sumSqSnd (a b : List ℝ) : ℝ :=
  (List.zipWith (fun _ y => y * y) a b).sum

open Classical in
/-- `cosineSimilarity` from `faqService.js`: `dot / (√na · √nb)`, except that
`if (!na || !nb) return 0` short-circuits when either accumulated norm is 0. -/
noncomputable def cosineSimilarity (a b : List ℝ) : ℝ :=
  let dot := dotProd a b
  let na := sumSqFst a b
  let nb := sumSqSnd a b
  if na = 0 ∨ nb = 0 then 0 else dot / (Real.sqrt na * Real.sqrt nb)

open Classical in
/-- `cosine` from `caseMemory.js` — the source duplicates the whole
`cosineSimilarity` loop verbatim. -/
noncomputable def cosine (a b : List ℝ) : ℝ :=
  let dot := dotProd a b
  let na := sumSqFst a b
  let nb := sumSqSnd a b
  if na = 0 ∨ nb = 0 then 0 else dot / (Real.sqrt na * Real.sqrt nb)

/-! ## `faqService.js` — the FAQ matcher -/

/-- The four fixed business verticals of the Mongoose `enum`:
`"E-commerce" | "Travel" | "Telecommunications" | "Banking Services"`. -/
inductive Domain
  | ecommerce
  | travel
  | telecommunications
  | banking
deriving DecidableEq, Repr

/-- A `faqs` collection document. -/
structure FaqEntry where
  question : String
  answer : String
  domain : Domain
  embedding : List ℝ

/-- The `{ answer: ..., score: ... }` object built by `checkFaq`'s ranking. -/
structure FaqHit where
  answer : String
  score : ℝ

/-- Default of the `FAQ_SIM_THRESHOLD` environment variable. -/
noncomputable def FAQ_SIM_THRESHOLD : ℝ := 76 / 100

/-- Default of the `FAQ_TOP_K` environment variable. -/
def FAQ_TOP_K : ℕ := 3

/-- Outcomes of the two external calls made inside `checkFaq`'s `try` block:
the embedding request (`getEmbedding`, which throws on failure) and the
`Faq.find` database query.  The domain filter that Mongo would apply
server-side is applied in `checkFaqE` below. -/
structure FaqEnv where
  embedResult : Except String (List ℝ)
  findResult : Except String (List FaqEntry)

open Classical in
/-- The body of `checkFaq`'s `try` block: embed the message, fetch and filter
the corpus, rank all entries by `cosineSimilarity` descending, truncate to
`FAQ_TOP_K`, and accept the best entry only if its score reaches the
threshold. -/
noncomputable def checkFaqE (env : FaqEnv) (message : String)
    (domain : Option Domain) : Except String (Option FaqHit) := do
  let queryEmbedding ← env.embedResult
  let found ← env.findResult
  let faqs : List FaqEntry := match domain with
    | some d => found.filter (fun f => f.domain = d)
    | none => found
  let ranked :=
    ((faqs.map (fun f => FaqHit.mk f.answer
        (cosineSimilarity queryEmbedding f.embedding))).mergeSort
      (fun x y => decide (y.score ≤ x.score))).take FAQ_TOP_K
  match ranked.head? with
  | some best =>
      pure (if FAQ_SIM_THRESHOLD ≤ best.score then some best else none)
  | none => pure none

/-- `checkFaq` from `faqService.js`: the `catch` clause logs and returns
`null`, so every internal error becomes "no match". -/
noncomputable def checkFaq (env : FaqEnv) (message : String)
    (domain : Option Domain) : Option FaqHit :=
  match checkFaqE env message domain with
  | Except.ok r => r
  | Except.error _ => none

/-! ## `caseMemory.js` — case-memory records, indexing, search -/

/-- A `CaseMemory` collection document (`caseId` carries a `unique` index;
the `createdAt` timestamp is elided). -/
structure MemRecord where
  caseId : ℕ
  orderId : String
  productIndex : ℕ
  summary : String
  domain : Domain
  embedding : List ℝ

/-- `findOneAndUpdate({ caseId }, ..., { upsert: true })` under the unique
index: replace the first record with this `caseId`, or append when none
exists. -/
def upsertMem (r : MemRecord) : List MemRecord → List MemRecord
  | [] => [r]
  | x :: xs => if x.caseId = r.caseId then r :: xs else x :: upsertMem r xs

/-- Number of `CaseMemory` records keyed by `id`. -/
def countMem (id : ℕ) (store : List MemRecord) : ℕ :=
  (store.filter (fun r => r.caseId == id)).length

inductive Status
  | opened       -- "open" (a Lean keyword, hence the spelling)
  | inProgress   -- "in-progress"
  | resolved     -- "resolved"
deriving DecidableEq, Repr

/-- One entry of a case's `responses` array (timestamp elided).
`adminId = none` marks a user/bot-authored entry. -/
structure CaseResponse where
  adminId : Option ℕ
  message : String
deriving DecidableEq, Repr

/-- A `Case` collection document (`_id` rendered as `id : ℕ`; timestamps and
the optional `productChanges` sub-document are elided). -/
structure Case where
  id : ℕ
  userId : ℕ
  orderId : String
  productIndex : ℕ
  description : String
  domain : Domain
  priority : Priority
  status : Status
  responses : List CaseResponse
deriving DecidableEq, Repr

/-- `indexCase` from `caseMemory.js`.  `embedResult` is the outcome of the
`getEmbedding(text)` call; the `catch` clause logs and leaves the store
untouched, and a missing `caseDoc` returns immediately. -/
def indexCase (embedResult : Except String (List ℝ)) (caseDoc : Option Case)
    (store : List MemRecord) : List MemRecord :=
  match caseDoc with
  | none => store
  | some c =>
    let t := c.description.take 512
    let text := if t = "" then "Case " ++ toString c.id else t
    match embedResult with
    | Except.error _ => store
    | Except.ok emb =>
        upsertMem
          { caseId := c.id, orderId := c.orderId, productIndex := c.productIndex,
            summary := text, domain := c.domain, embedding := emb } store

/-- A scored search result of `searchSimilarCases` (`{ ...c, score }`; the
spread record is kept whole in the `doc` field). -/
structure ScoredMem where
  doc : MemRecord
  score : ℝ

/-- Outcomes of the external calls inside `searchSimilarCases`'s `try` block:
the embedding request and the `CaseMemory.find(filter).lean().limit(200)`
query (domain filter and limit applied in the model). -/
structure MemEnv where
  embedResult : Except String (List ℝ)
  findResult : Except String (List MemRecord)

open Classical in
/-- The body of `searchSimilarCases`'s `try` block. -/
noncomputable def searchSimilarCasesE (env : MemEnv) (text : String)
    (domain : Option Domain) (topK : ℕ) : Except String (List ScoredMem) := do
  let queryEmbedding ← env.embedResult
  let found ← env.findResult
  let filtered : List MemRecord := match domain with
    | some d => found.filter (fun c => c.domain = d)
    | none => found
  let candidates := filtered.take 200
  pure (((candidates.map (fun c => ScoredMem.mk c
      (cosine queryEmbedding c.embedding))).mergeSort
    (fun x y => decide (y.score ≤ x.score))).take topK)

/-- `searchSimilarCases` from `caseMemory.js`: the `catch` clause logs and
returns `[]`, so every internal error becomes an empty result. -/
noncomputable def searchSimilarCases (env : MemEnv) (text : String)
    (domain : Option Domain) (topK : ℕ) : List ScoredMem :=
  match searchSimilarCasesE env text domain topK with
  | Except.ok r => r
  | Except.error _ => []

/-! ## `formatCaseMemory.js` — reply synthesis

The regular expressions of the source are modelled as explicit character
scanners (`\s` read as `Char.isWhitespace`, `\b` as a non-word/word
boundary). -/

/-- JavaScript `\w`. -/
def isWordChar (c : Char) : Bool :=
  c.isAlpha || c.isDigit || c == '_'

/-- Drop a maximal leading whitespace run (a greedy `\s*`). -/
def dropSpaces : List Char → List Char
  | c :: cs => if c.isWhitespace then dropSpaces cs else c :: cs
  | [] => []

theorem dropSpaces_length_le (l : List Char) : (dropSpaces l).length ≤ l.length := by
  induction l with
  | nil => simp [dropSpaces]
  | cons c cs ih =>
      by_cases h : c.isWhitespace = true <;>
        simp [dropSpaces, h] <;> omega

/-- Case-insensitive literal prefix match returning the remainder. -/
def stripCI (pat : List Char) (l : List Char) : Option (List Char) :=
  match pat, l with
  | [], rest => some rest
  | _ :: _, [] => none
  | p :: ps, c :: cs => if p.toLower == c.toLower then stripCI ps cs else none

theorem stripCI_length_le (pat l r : List Char) (h : stripCI pat l = some r) :
    r.length ≤ l.length := by
  induction pat generalizing l r with
  | nil => simp [stripCI] at h; subst h; exact le_rfl
  | cons p ps ih =>
      cases l with
      | nil => simp [stripCI] at h
      | cons c cs =>
          by_cases hc : (p.toLower == c.toLower) = true
          · rw [stripCI, if_pos hc] at h
            exact (ih cs r h).trans (by simp)
          · rw [stripCI, if_neg hc] at h
            exact absurd h (by simp)

/-- Match `\s*:\s*` returning the remainder. -/
def stripColonWs (l : List Char) : Option (List Char) :=
  match dropSpaces l with
  | ':' :: rest => some (dropSpaces rest)
  | _ => none

theorem stripColonWs_length_lt (l r : List Char) (h : stripColonWs l = some r) :
    r.length < l.length := by
  unfold stripColonWs at h
  rcases hd : dropSpaces l with - | ⟨c, rest⟩
  · rw [hd] at h; simp at h
  · rw [hd] at h
    by_cases hc : c = ':'
    · subst hc
      simp only [Option.some.injEq] at h
      subst h
      have h1 := dropSpaces_length_le rest
      have h2 := dropSpaces_length_le l
      rw [hd] at h2
      simp at h2
      omega
    · exact absurd h (by cases c <;> simp_all)

/-- Match one alternative of `\b(Agent|User|Support Bot)\s*:\s*` at the head
(the word-boundary test is done by the caller), leftmost alternative first. -/
def matchRoleTag (l : List Char) : Option (List Char) :=
  match (stripCI ("Agent".toList) l).bind stripColonWs with
  | some r => some r
  | none =>
    match (stripCI ("User".toList) l).bind stripColonWs with
    | some r => some r
    | none => (stripCI ("Support Bot".toList) l).bind stripColonWs

theorem bind_stripColonWs_length_lt (pat l r : List Char)
    (h : (stripCI pat l).bind stripColonWs = some r) : r.length < l.length := by
  rcases hs : stripCI pat l with - | m
  · rw [hs] at h; simp at h
  · rw [hs] at h
    simp only [Option.some_bind] at h
    exact (stripColonWs_length_lt m r h).trans_le (stripCI_length_le pat l m hs)

theorem matchRoleTag_length_lt (l r : List Char) (h : matchRoleTag l = some r) :
    r.length < l.length := by
  unfold matchRoleTag at h
  rcases h1 : (stripCI ("Agent".toList) l).bind stripColonWs with - | r1
  · rw [h1] at h
    rcases h2 : (stripCI ("User".toList) l).bind stripColonWs with - | r2
    · rw [h2] at h
      exact bind_stripColonWs_length_lt _ l r h
    · rw [h2] at h
      simp only [Option.some.injEq] at h
      subst h
      exact bind_stripColonWs_length_lt _ l _ h2
  · rw [h1] at h
    simp only [Option.some.injEq] at h
    subst h
    exact bind_stripColonWs_length_lt _ l _ h1

/-- The global replace of `/\b(Agent|User|Support Bot)\s*:\s*/gi` by `""`:
scan left to right, removing each match; `prev` is the character preceding
the scan position (for the `\b` test — after a removal the last consumed
character is `:` or whitespace, both non-word). -/
def cleanRoleTags (prev : Option Char) (l : List Char) : List Char :=
  match l with
  | [] => []
  | c :: cs =>
    if (match prev with | some p => isWordChar p | none => false) then
      c :: cleanRoleTags (some c) cs
    else
      match hm : matchRoleTag (c :: cs) with
      | some rest => cleanRoleTags (some ':') rest
      | none => c :: cleanRoleTags (some c) cs
termination_by l.length
decreasing_by
  · simp
  · exact matchRoleTag_length_lt _ _ hm
  · simp

/-- The global replace of `/\|\s*/g` by `" "`. -/
def pipeToSpace : List Char → List Char
  | [] => []
  | c :: cs =>
    if c = '|' then ' ' :: pipeToSpace (dropSpaces cs)
    else c :: pipeToSpace cs
termination_by l => l.length
decreasing_by
  · have := dropSpaces_length_le cs
    simp only [List.length_cons]
    omega
  · simp

/-- The global replace of `/\s{2,}/g` by `" "`: a run of two or more
whitespace characters becomes a single space (a lone whitespace character is
kept as is). -/
def collapseWs : List Char → List Char
  | [] => []
  | c :: cs =>
    if c.isWhitespace && (match cs with | d :: _ => d.isWhitespace | [] => false) then
      ' ' :: collapseWs (dropSpaces cs)
    else c :: collapseWs cs
termination_by l => l.length
decreasing_by
  · have := dropSpaces_length_le cs
    simp only [List.length_cons]
    omega
  · simp

/-- JavaScript `String.prototype.trim`. -/
def jsTrim (l : List Char) : List Char :=
  dropSpaces (dropSpaces l.reverse).reverse

/-- `cleanTranscript` from `formatCaseMemory.js`. -/
def cleanTranscript (text : String) : String :=
  ⟨jsTrim (collapseWs (pipeToSpace (cleanRoleTags none text.toList)))⟩

/-- The scan of `/Resolution Summary\s*:\s*([\s\S]+)/i`: find the leftmost
occurrence; the match succeeds when anything follows the colon, and the
returned capture is already trimmed (the greedy `\s*` after the colon only
sheds whitespace that `trim` would remove anyway). -/
def findResolutionRest : List Char → Option (List Char)
  | [] => none
  | c :: cs =>
    match stripCI ("Resolution Summary".toList) (c :: cs) with
    | some afterLit =>
        (match dropSpaces afterLit with
         | ':' :: afterColon =>
             if afterColon.isEmpty then findResolutionRest cs
             else some (jsTrim afterColon)
         | _ => findResolutionRest cs)
    | none => findResolutionRest cs

/-- The split on `/(?<=[.?!])\s+/`: break at each whitespace run whose
preceding character is `.`, `?` or `!` (`acc` holds the current chunk,
reversed). -/
def splitSentences (acc : List Char) : List Char → List (List Char)
  | [] => [acc.reverse]
  | c :: cs =>
    if c.isWhitespace && (match acc.head? with
        | some p => p = '.' || p = '?' || p = '!'
        | none => false) then
      acc.reverse :: splitSentences [] (dropSpaces cs)
    else splitSentences (c :: acc) cs
termination_by l => l.length
decreasing_by
  · have := dropSpaces_length_le cs
    simp only [List.length_cons]
    omega
  · simp

/-- `pickResolutionSummary` from `formatCaseMemory.js`. -/
def pickResolutionSummary (text : String) : String :=
  match findResolutionRest text.toList with
  | some trimmed => ⟨trimmed⟩
  | none =>
      let parts := (splitSentences [] text.toList).take 2
      ⟨jsTrim (List.intercalate [' '] parts)⟩

/-- `buildMemoryReply` from `formatCaseMemory.js` (option fields model the
optional destructured parameters; `missingQty = some 0` is falsy). -/
def buildMemoryReply (rawMessage : String) (orderId : Option String)
    (productName : Option String) (missingQty : Option ℕ) : String :=
  let cleaned := cleanTranscript rawMessage
  let picked := pickResolutionSummary cleaned
  let summary := if picked = "" then cleaned else picked
  let action :=
    if jsIncludes (lowerStr summary) "refund" then "issue a refund"
    else if jsIncludes (lowerStr summary) "replace"
        || jsIncludes (lowerStr summary) "replacement" then "send a replacement"
    else "resolve this for you"
  let qtyPart :=
    match missingQty, productName with
    | some q, some pn =>
        if q != 0 then toString q ++ " " ++ pn ++ (if 1 < q then "s" else "")
        else "the " ++ pn
    | none, some pn => "the " ++ pn
    | some _, none => "the missing item"
    | none, none => "the missing item"
  let orderPart :=
    match orderId with
    | some o => " for order " ++ o
    | none => ""
  "I’ve handled a similar case before: " ++ summary ++ ". For your case"
    ++ orderPart ++ ", I can " ++ action ++ " for " ++ qtyPart
    ++ " right away or connect you with a specialist. Would you like me to proceed?"

/-! ## `server.js` — state, agent-only lock, events -/

/-- `AGENT_ONLY_TTL` (seconds).  Expiry itself is abstracted away: the lock
model below is the set of case ids whose Redis key `agent-only:<id>` is
currently present. -/
def AGENT_ONLY_TTL : ℕ := 30 * 60

/-- `setAgentOnly`: `redis.set("agent-only:" ++ id, "1", { EX: TTL })`. -/
def setAgentOnly (caseId : ℕ) (locks : List ℕ) : List ℕ :=
  if caseId ∈ locks then locks else caseId :: locks

/-- `isAgentOnly`: `Boolean(await redis.get("agent-only:" ++ id))`. -/
def isAgentOnly (caseId : ℕ) (locks : List ℕ) : Bool :=
  locks.contains caseId

/-- `clearAgentOnly`: `redis.del("agent-only:" ++ id)`. -/
def clearAgentOnly (caseId : ℕ) (locks : List ℕ) : List ℕ :=
  locks.filter (fun i => i != caseId)

/-- A socket.io room: `user:<id>`, the global `"agents"` room, or a
`case:<id>` room. -/
inductive Room
  | user (id : ℕ)
  | agents
  | caseRoom (id : ℕ)
deriving DecidableEq, Repr

/-- The socket.io events emitted by the modelled endpoints (timestamps
elided).  `chatReply` is a `chat:reply` payload, `chatUser` the
`chat:user` inbound-message notification sent to agents, `caseStatus` a
`case:status` broadcast, `caseMessage` a `case:message` payload. -/
inductive Event
  | chatReply (room : Room) (userId : ℕ) (orderId : String) (productIndex : ℕ)
      (caseId : Option ℕ) (source : String) (message : String)
  | chatUser (room : Room) (userId : ℕ) (orderId : String) (productIndex : ℕ)
      (caseId : ℕ) (message : String)
  | caseStatus (room : Room) (caseId : ℕ) (status : Status)
  | caseMessage (room : Room) (caseId : ℕ) (sender : String) (message : String)
deriving DecidableEq, Repr

/-- One JSON entry `rPush`ed onto the per-(user, order, product) Redis chat
list (timestamp elided; `source` and `score` are present only on the paths
that set them, and `reply = none` models `reply: null`). -/
structure ChatTurn where
  prompt : String
  reply : Option String
  orderId : String
  productIndex : ℕ
  caseId : Option ℕ
  source : Option String
  score : Option ℚ
deriving DecidableEq, Repr

/-- The mutable backend state seen by the modelled endpoints: the `cases`
collection (with the id counter standing in for ObjectId generation), the
set of active agent-only locks, the chat log (all per-key Redis lists
flattened; each turn carries its key fields), and the `CaseMemory` store. -/
structure ServerState where
  cases : List Case
  nextCaseId : ℕ
  agentOnly : List ℕ
  chatLog : List ChatTurn
  memory : List MemRecord

/-- The per-user selected product kept in Redis (`selected-product:<id>`),
as stored by `/api/select-product`. -/
structure SelectedProduct where
  orderId : String
  productIndex : ℕ
  name : String
  quantity : ℕ
  price : ℚ
  domain : Domain
  status : String
deriving DecidableEq, Repr

/-- `Case.findOne({ userId, orderId, productIndex })`. -/
def findCase (cases : List Case) (userId : ℕ) (orderId : String)
    (productIndex : ℕ) : Option Case :=
  cases.find? (fun c =>
    c.userId == userId && c.orderId == orderId && c.productIndex == productIndex)

/-- Saving a case document: replace the document with this `_id`, or insert
when new. -/
def upsertCase (c : Case) : List Case → List Case
  | [] => [c]
  | x :: xs => if x.id == c.id then c :: xs else x :: upsertCase c xs

/-! ## `server.js` — the `/api/chat` triage pipeline -/

/-- `REFUND_WORDS` from the refund stage of `/api/chat`. -/
def REFUND_WORDS : List String :=
  ["refund", "money back", "chargeback", "return my money"]

/-- `REFUND_WORDS.some((w) => message.toLowerCase().includes(w))`. -/
def isRefundMsg (message : String) : Bool :=
  REFUND_WORDS.any (fun w => jsIncludes (lowerStr message) w)

/-- The LLM stage's priority classifier,
`/payment|billing|charged|failed/i.test(message)` — a case-insensitive
substring test for the four literals. -/
def llmPriority (message : String) : Priority :=
  if ["payment", "billing", "charged", "failed"].any
      (fun w => jsIncludes (lowerStr message) w) then Priority.high
  else Priority.low

/-- The fixed escalation reply of the refund stage. -/
def refundReplyText : String :=
  "Got it. This looks like a refund request — we’ve escalated it to our support team. We’ll take care of it."

/-- The static fallback reply used when every Gemini model fails. -/
def llmDefaultText : String :=
  "Thanks for the details. We’re routing this to a specialist."

/-- Default of the `SIM_TOP_K` environment variable. -/
def SIM_TOP_K : ℕ := 3

/-- Default of the `SIM_CASE_THRESHOLD` environment variable (the scores the
pipeline compares are idealised as rationals at this boundary). -/
def SIM_CASE_THRESHOLD : ℚ := 72 / 100

/-- The grounding prompt built by the LLM stage. -/
def buildLlmPrompt (domain : Domain) (userName userEmail : String)
    (sp : SelectedProduct) (message : String) : String :=
  String.intercalate "\n"
    ["You are a customer-support assistant for " ++ toString (repr domain) ++ ".",
     "User: " ++ userName ++ " (" ++ userEmail ++ ")",
     "Product: " ++ sp.name ++ " x" ++ toString sp.quantity ++ " ₹"
       ++ toString sp.price ++ " " ++ sp.status,
     "Order: " ++ sp.orderId,
     "Instruction:",
     "- Give a concise helpful answer.",
     "- If not resolvable without human help, politely say we’ll assign a specialist.",
     "- Never ask for card or OTP.",
     "User message: \"" ++ message ++ "\"",
     "Return only plain text (no JSON)."]

/-- The result of a `checkFaq` call as consumed by the pipeline (scores
idealised as `ℚ` at this boundary). -/
structure FaqHitQ where
  answer : String
  score : ℚ
deriving DecidableEq, Repr

/-- One result of a `searchSimilarCases` call as consumed by the pipeline. -/
structure MemHitQ where
  caseId : ℕ
  summary : String
  score : ℚ
deriving DecidableEq, Repr

/-- Outcomes of the external collaborator calls a single `/api/chat` request
may make: `faq` is what `checkFaq(message, domain)` returns, `memory` what
`searchSimilarCases(message, domain, K)` returns, `llm prompt` what the
`callGemini(prompt)` retry loop produces (`none` = it threw, which the
handler turns into `llmDefaultText`), and `embed` the embedding outcome
consumed by `indexCase`. -/
structure ChatEnv where
  faq : Option FaqHitQ
  memory : List MemHitQ
  llm : String → Option String
  embed : Except String (List ℝ)

/-- The external decision stages a request consults, in order. -/
inductive Stage
  | faq
  | caseMemory
  | llm
deriving DecidableEq, Repr

/-- The JSON bodies `/api/chat` can answer with. -/
inductive ChatResponse
  | badRequest (error : String)
  | queuedHuman (caseId : ℕ)
  | refundEscalation (reply : String) (sla : SLAResult) (caseId : ℕ)
  | faqAnswer (reply : String) (score : ℚ)
  | memoryAnswer (reply : String) (score : ℚ) (similarCases : List (ℕ × ℚ))
  | llmAnswer (reply : String) (sla : SLAResult) (caseId : ℕ)
deriving DecidableEq, Repr

/-- Everything one `/api/chat` request produces: the HTTP response, the new
backend state, the emitted events, and the trace of consulted stages. -/
structure ChatOutcome where
  res : ChatResponse
  state : ServerState
  events : List Event
  stages : List Stage

/-- The "ensure case exists" step at the top of `/api/chat`: find the case
for `(userId, orderId, productIndex)` or create a minimal open one from the
message. -/
def ensureCase (st : ServerState) (userId : ℕ) (sp : SelectedProduct)
    (message : String) : Case × ServerState :=
  match findCase st.cases userId sp.orderId sp.productIndex with
  | some c => (c, st)
  | none =>
      let c : Case :=
        { id := st.nextCaseId, userId := userId, orderId := sp.orderId,
          productIndex := sp.productIndex, description := message,
          domain := sp.domain, priority := Priority.low,
          status := Status.opened, responses := [] }
      (c, { st with cases := upsertCase c st.cases, nextCaseId := st.nextCaseId + 1 })

/-- The agent-only short-circuit of `/api/chat`: record the turn with a null
reply, notify the agents room only, answer `queued`/`human_agent`. -/
def agentOnlyOutcome (st : ServerState) (userId : ℕ) (sp : SelectedProduct)
    (message : String) (existingCase : Case) : ChatOutcome :=
  let turn : ChatTurn :=
    { prompt := message, reply := none, orderId := sp.orderId,
      productIndex := sp.productIndex, caseId := some existingCase.id,
      source := some "user", score := none }
  { res := ChatResponse.queuedHuman existingCase.id,
    state := { st with chatLog := st.chatLog ++ [turn] },
    events := [Event.chatUser Room.agents userId sp.orderId sp.productIndex
        existingCase.id message],
    stages := [] }

/-- The refund stage of `/api/chat`: force priority high, upsert the case
with the refund-tagged description and status open, index it, record the
turn, emit the fixed reply tagged `"refund"` to the user and the agents. -/
def refundOutcome (env : ChatEnv) (st : ServerState) (userId : ℕ)
    (sp : SelectedProduct) (message : String) : ChatOutcome :=
  let label := (analyzeSentiment message).label
  let sla := computeSLA Priority.high label
  let description := "[Refund Request] " ++ message
  let up : Case × ServerState :=
    match findCase st.cases userId sp.orderId sp.productIndex with
    | none =>
        let c : Case :=
          { id := st.nextCaseId, userId := userId, orderId := sp.orderId,
            productIndex := sp.productIndex, description := description,
            domain := sp.domain, priority := Priority.high,
            status := Status.opened, responses := [] }
        (c, { st with cases := upsertCase c st.cases, nextCaseId := st.nextCaseId + 1 })
    | some c =>
        let c2 := { c with
          description := description, priority := Priority.high,
          domain := sp.domain, status := Status.opened }
        (c2, { st with cases := upsertCase c2 st.cases })
  let csCase := up.1
  let st2 := up.2
  let st3 := { st2 with memory := indexCase env.embed (some csCase) st2.memory }
  let turn : ChatTurn :=
    { prompt := message, reply := some refundReplyText, orderId := sp.orderId,
      productIndex := sp.productIndex, caseId := some csCase.id,
      source := none, score := none }
  { res := ChatResponse.refundEscalation refundReplyText sla csCase.id,
    state := { st3 with chatLog := st3.chatLog ++ [turn] },
    events :=
      [Event.chatReply (Room.user userId) userId sp.orderId sp.productIndex
          (some csCase.id) "refund" refundReplyText,
       Event.caseStatus (Room.user userId) csCase.id csCase.status,
       Event.chatReply Room.agents userId sp.orderId sp.productIndex
          (some csCase.id) "refund" refundReplyText],
    stages := [] }

/-- The FAQ-hit branch of `/api/chat`: return the answer tagged `"faq"`,
record the turn with a null `caseId`, mutate no case. -/
def faqOutcome (st : ServerState) (userId : ℕ) (sp : SelectedProduct)
    (message : String) (hit : FaqHitQ) : ChatOutcome :=
  let turn : ChatTurn :=
    { prompt := message, reply := some hit.answer, orderId := sp.orderId,
      productIndex := sp.productIndex, caseId := none,
      source := some "faq", score := some hit.score }
  { res := ChatResponse.faqAnswer hit.answer hit.score,
    state := { st with chatLog := st.chatLog ++ [turn] },
    events :=
      [Event.chatReply (Room.user userId) userId sp.orderId sp.productIndex
          none "faq" hit.answer,
       Event.chatReply Room.agents userId sp.orderId sp.productIndex
          none "faq" hit.answer],
    stages := [Stage.faq] }

/-- The guard `similar?.length && similar[0].score >= CM_TH` of the
case-memory stage. -/
def memTop : List MemHitQ → Option MemHitQ
  | [] => none
  | top :: _ => if SIM_CASE_THRESHOLD ≤ top.score then some top else none

/-- The case-memory-hit branch of `/api/chat`: synthesize a reply from the
top match, tag it `"case-memory"`, mutate no case. -/
def memoryOutcome (st : ServerState) (userId : ℕ) (sp : SelectedProduct)
    (message : String) (top : MemHitQ) (similar : List MemHitQ) : ChatOutcome :=
  let pretty := buildMemoryReply top.summary (some sp.orderId) (some sp.name) none
  let turn : ChatTurn :=
    { prompt := message, reply := some pretty, orderId := sp.orderId,
      productIndex := sp.productIndex, caseId := some top.caseId,
      source := some "case-memory", score := some top.score }
  { res := ChatResponse.memoryAnswer pretty top.score
      (similar.map (fun s => (s.caseId, s.score))),
    state := { st with chatLog := st.chatLog ++ [turn] },
    events :=
      [Event.chatReply (Room.user userId) userId sp.orderId sp.productIndex
          (some top.caseId) "case-memory" pretty,
       Event.chatReply Room.agents userId sp.orderId sp.productIndex
          (some top.caseId) "case-memory" pretty],
    stages := [Stage.faq, Stage.caseMemory] }

/-- The generative fallback of `/api/chat`: call Gemini (default escalation
text when the whole retry loop throws), classify sentiment and priority,
upsert the case — reopening it when resolved — index it, record the turn,
reply tagged `"llm"`. -/
def llmOutcome (env : ChatEnv) (st : ServerState) (userId : ℕ)
    (userName userEmail : String) (sp : SelectedProduct) (message : String) :
    ChatOutcome :=
  let prompt := buildLlmPrompt sp.domain userName userEmail sp message
  let llmReply := match env.llm prompt with
    | some t => t
    | none => llmDefaultText
  let label := (analyzeSentiment (message ++ " " ++ llmReply)).label
  let priority := llmPriority message
  let sla := computeSLA priority label
  let up : Case × ServerState :=
    match findCase st.cases userId sp.orderId sp.productIndex with
    | none =>
        let c : Case :=
          { id := st.nextCaseId, userId := userId, orderId := sp.orderId,
            productIndex := sp.productIndex, description := message,
            domain := sp.domain, priority := priority,
            status := Status.opened, responses := [] }
        (c, { st with cases := upsertCase c st.cases, nextCaseId := st.nextCaseId + 1 })
    | some c =>
        let c2 := { c with
          description := message, priority := priority, domain := sp.domain,
          status := if c.status = Status.resolved then Status.opened
                    else c.status }
        (c2, { st with cases := upsertCase c2 st.cases })
  let csCase := up.1
  let st2 := up.2
  let st3 := { st2 with memory := indexCase env.embed (some csCase) st2.memory }
  let turn : ChatTurn :=
    { prompt := message, reply := some llmReply, orderId := sp.orderId,
      productIndex := sp.productIndex, caseId := some csCase.id,
      source := some "llm", score := none }
  { res := ChatResponse.llmAnswer llmReply sla csCase.id,
    state := { st3 with chatLog := st3.chatLog ++ [turn] },
    events :=
      [Event.chatReply (Room.user userId) userId sp.orderId sp.productIndex
          (some csCase.id) "llm" llmReply,
       Event.chatReply Room.agents userId sp.orderId sp.productIndex
          (some csCase.id) "llm" llmReply,
       Event.caseStatus (Room.user userId) csCase.id csCase.status],
    stages := [Stage.faq, Stage.caseMemory, Stage.llm] }

/-- The `/api/chat` handler (`server.js`), in source order: validate the
message, require a selected product, ensure the case exists, then the
strict-precedence chain — agent-only short-circuit, refund keywords, FAQ,
case-memory, generative fallback. -/
def handleChat (env : ChatEnv) (st : ServerState) (userId : ℕ)
    (userName userEmail : String) (selected : Option SelectedProduct)
    (message : String) : ChatOutcome :=
  if message = "" then
    ⟨ChatResponse.badRequest "Message is required", st, [], []⟩
  else
    match selected with
    | none => ⟨ChatResponse.badRequest "Select an order/product first", st, [], []⟩
    | some sp =>
      let es := ensureCase st userId sp message
      let existingCase := es.1
      let st1 := es.2
      if isAgentOnly existingCase.id st1.agentOnly then
        agentOnlyOutcome st1 userId sp message existingCase
      else if isRefundMsg message then
        refundOutcome env st1 userId sp message
      else
        match env.faq with
        | some hit => faqOutcome st1 userId sp message hit
        | none =>
          match memTop env.memory with
          | some top => memoryOutcome st1 userId sp message top env.memory
          | none => llmOutcome env st1 userId userName userEmail sp message

/-! ## `server.js` — `/api/case/:id/response` (agent adds a response) -/

/-- The JSON bodies `/api/case/:id/response` can answer with. -/
inductive RespResult
  | badRequest
  | notFound
  | responseAdded (updatedCase : Case)
deriving DecidableEq, Repr

/-- The `/api/case/:id/response` handler: require a message, then
`findByIdAndUpdate` pushing the response and setting `status:
"in-progress"`, emit to the case room, the user and the agents, and set
(or renew) the agent-only lock. -/
def postCaseResponse (st : ServerState) (adminId caseId : ℕ)
    (message : String) : RespResult × ServerState × List Event :=
  if message = "" then (RespResult.badRequest, st, [])
  else
    match st.cases.find? (fun c => c.id == caseId) with
    | none => (RespResult.notFound, st, [])
    | some c =>
      let updated : Case :=
        { c with
          responses := c.responses ++ [⟨some adminId, message⟩],
          status := Status.inProgress }
      let events :=
        [Event.caseMessage (Room.caseRoom updated.id) updated.id "agent" message,
         Event.caseMessage (Room.user updated.userId) updated.id "agent" message,
         Event.caseStatus (Room.caseRoom updated.id) updated.id Status.inProgress,
         Event.caseStatus (Room.user updated.userId) updated.id Status.inProgress,
         Event.chatReply (Room.user updated.userId) updated.userId updated.orderId
            updated.productIndex (some updated.id) "agent" message,
         Event.chatReply Room.agents updated.userId updated.orderId
            updated.productIndex (some updated.id) "agent" message]
      (RespResult.responseAdded updated,
       { st with
         cases := upsertCase updated st.cases,
         agentOnly := setAgentOnly updated.id st.agentOnly },
       events)

/-! ## Concrete fixtures used by witnesses and counterexamples -/

/-- A resolved case used to exercise the FAQ branch of `/api/chat`. -/
def c3Case : Case :=
  { id := 1, userId := 7, orderId := "o1", productIndex := 0,
    description := "wrong item", domain := Domain.ecommerce,
    priority := Priority.low, status := Status.resolved, responses := [] }

/-- Backend state holding only `c3Case`, with no active lock. -/
def c3State : ServerState :=
  { cases := [c3Case], nextCaseId := 2, agentOnly := [], chatLog := [], memory := [] }

/-- Environment where the FAQ matcher hits well above its threshold. -/
def c3Env : ChatEnv :=
  { faq := some ⟨"Here is the FAQ answer.", 1⟩, memory := [],
    llm := fun _ => none, embed := Except.error "offline" }

/-- Environment where every automated stage misses or fails. -/
def missEnv : ChatEnv :=
  { faq := none, memory := [], llm := fun _ => none,
    embed := Except.error "offline" }

/-- The selected product matching `c3Case`'s key. -/
def c3Sp : SelectedProduct :=
  { orderId := "o1", productIndex := 0, name := "Widget", quantity := 1,
    price := 1, domain := Domain.ecommerce, status := "Delivered" }

/-- A resolved case used against `/api/case/:id/response`. -/
def c4Case : Case :=
  { id := 9, userId := 3, orderId := "o9", productIndex := 0,
    description := "broken screen", domain := Domain.ecommerce,
    priority := Priority.low, status := Status.resolved, responses := [] }

/-- Backend state holding only `c4Case`. -/
def c4State : ServerState :=
  { cases := [c4Case], nextCaseId := 10, agentOnly := [], chatLog := [], memory := [] }

/-- An in-progress case used to exercise the refund stage's overwrite. -/
def c10Case : Case :=
  { id := 4, userId := 2, orderId := "o4", productIndex := 1,
    description := "delivery late", domain := Domain.travel,
    priority := Priority.low, status := Status.inProgress, responses := [] }

/-- Backend state holding only `c10Case`, with no active lock. -/
def c10State : ServerState :=
  { cases := [c10Case], nextCaseId := 5, agentOnly := [], chatLog := [], memory := [] }

/-- The selected product matching `c10Case`'s key. -/
def c10Sp : SelectedProduct :=
  { orderId := "o4", productIndex := 1, name := "Trip", quantity := 1,
    price := 1, domain := Domain.travel, status := "Booked" }

/-- Backend state holding `c3Case` with its agent-only lock set. -/
def lockedState : ServerState :=
  { cases := [c3Case], nextCaseId := 2, agentOnly := [1], chatLog := [], memory := [] }

/-- Backend state with no cases at all. -/
def emptyState : ServerState :=
  { cases := [], nextCaseId := 1, agentOnly := [], chatLog := [], memory := [] }

/-- A case used to exercise double indexing into the case-memory store. -/
def c9Case : Case :=
  { id := 11, userId := 6, orderId := "o11", productIndex := 0,
    description := "refund for duplicate charge", domain := Domain.banking,
    priority := Priority.high, status := Status.opened, responses := [] }

/-! ## Helper lemmas -/

theorem sentimentClamp_le_angry (s10 : ℤ) :
    (max (-1) (min 1 ((s10 : ℚ) / 10)) ≤ -(8/10)) ↔ s10 ≤ -8 := by
  rw [max_le_iff, min_le_iff]
  constructor
  · rintro ⟨-, h | h⟩
    · norm_num at h
    · have h2 : (s10 : ℚ) ≤ -8 := by
        rw [div_le_iff₀ (by norm_num : (0:ℚ) < 10)] at h
        linarith
      exact_mod_cast h2
  · intro h
    have h2 : (s10 : ℚ) ≤ -8 := by exact_mod_cast h
    exact ⟨by norm_num, Or.inr (by rw [div_le_iff₀ (by norm_num : (0:ℚ) < 10)]; linarith)⟩

theorem sentimentClamp_cool_le (s10 : ℤ) :
    ((6/10 : ℚ) ≤ max (-1) (min 1 ((s10 : ℚ) / 10))) ↔ 6 ≤ s10 := by
  rw [le_max_iff, le_min_iff]
  constructor
  · rintro (h | ⟨-, h⟩)
    · norm_num at h
    · have h2 : (6 : ℚ) ≤ s10 := by
        rw [le_div_iff₀ (by norm_num : (0:ℚ) < 10)] at h
        linarith
      exact_mod_cast h2
  · intro h
    have h2 : (6 : ℚ) ≤ s10 := by exact_mod_cast h
    exact Or.inr ⟨by norm_num, by rw [le_div_iff₀ (by norm_num : (0:ℚ) < 10)]; linarith⟩

theorem sumSq_sum_nonneg (l : List ℝ) : 0 ≤ (l.map (fun x => x * x)).sum :=
  List.sum_nonneg (by
    intro z hz
    rcases List.mem_map.mp hz with ⟨w, -, rfl⟩
    exact mul_self_nonneg w)

theorem sumSq_sum_pos (a : List ℝ) (h : ∃ x ∈ a, x ≠ 0) :
    0 < (a.map (fun x => x * x)).sum := by
  induction a with
  | nil => simp at h
  | cons y l ih =>
      rcases h with ⟨x, hx, hx0⟩
      rcases List.mem_cons.mp hx with rfl | hxl
      · have hy : 0 < x * x := mul_self_pos.mpr hx0
        have hl := sumSq_sum_nonneg l
        simp only [List.map_cons, List.sum_cons]
        linarith
      · have hrest := ih ⟨x, hxl, hx0⟩
        have hy : 0 ≤ y * y := mul_self_nonneg y
        simp only [List.map_cons, List.sum_cons]
        linarith

theorem mem_upsertCase (c : Case) (l : List Case) : c ∈ upsertCase c l := by
  induction l with
  | nil => simp [upsertCase]
  | cons x xs ih =>
      by_cases h : (x.id == c.id) = true
      · simp [upsertCase, h]
      · simp only [upsertCase, if_neg h]
        exact List.mem_cons_of_mem x ih

theorem find?_upsertCase_of_none (p : Case → Bool) (c : Case) (l : List Case)
    (hl : l.find? p = none) (hc : p c = true) :
    (upsertCase c l).find? p = some c := by
  induction l with
  | nil => simp [upsertCase, List.find?, hc]
  | cons x xs ih =>
      have hx : p x = false := by
        rcases hp : p x with - | -
        · rfl
        · rw [List.find?_cons_of_pos _ hp] at hl
          exact absurd hl (by simp)
      have hxs : xs.find? p = none := by
        rw [List.find?_cons_of_neg _ (by simp [hx])] at hl
        exact hl
      by_cases hid : (x.id == c.id) = true
      · simp only [upsertCase, if_pos hid]
        exact List.find?_cons_of_pos _ hc
      · simp only [upsertCase, if_neg hid]
        rw [List.find?_cons_of_neg _ (by simp [hx])]
        exact ih hxs

theorem ensureCase_find (st : ServerState) (userId : ℕ) (sp : SelectedProduct)
    (message : String) :
    findCase (ensureCase st userId sp message).2.cases userId sp.orderId
      sp.productIndex = some (ensureCase st userId sp message).1 := by
  unfold ensureCase
  rcases hf : findCase st.cases userId sp.orderId sp.productIndex with - | c
  · simp only []
    unfold findCase at hf ⊢
    exact find?_upsertCase_of_none _ _ _ hf (by simp)
  · simpa using hf

theorem refundOutcome_res_of_found (env : ChatEnv) (st : ServerState)
    (userId : ℕ) (sp : SelectedProduct) (message : String) (c : Case)
    (hfind : findCase st.cases userId sp.orderId sp.productIndex = some c) :
    (refundOutcome env st userId sp message).res
      = ChatResponse.refundEscalation refundReplyText
          (computeSLA Priority.high (analyzeSentiment message).label) c.id := by
  simp only [refundOutcome, hfind]

theorem refundOutcome_state_cases_of_found (env : ChatEnv) (st : ServerState)
    (userId : ℕ) (sp : SelectedProduct) (message : String) (c : Case)
    (hfind : findCase st.cases userId sp.orderId sp.productIndex = some c) :
    (refundOutcome env st userId sp message).state.cases
      = upsertCase { c with
          description := "[Refund Request] " ++ message,
          priority := Priority.high, domain := sp.domain,
          status := Status.opened } st.cases := by
  simp only [refundOutcome, hfind]

theorem refundOutcome_stages (env : ChatEnv) (st : ServerState)
    (userId : ℕ) (sp : SelectedProduct) (message : String) :
    (refundOutcome env st userId sp message).stages = [] := rfl

theorem refundOutcome_events_of_found (env : ChatEnv) (st : ServerState)
    (userId : ℕ) (sp : SelectedProduct) (message : String) (c : Case)
    (hfind : findCase st.cases userId sp.orderId sp.productIndex = some c) :
    (refundOutcome env st userId sp message).events
      = [Event.chatReply (Room.user userId) userId sp.orderId sp.productIndex
           (some c.id) "refund" refundReplyText,
         Event.caseStatus (Room.user userId) c.id Status.opened,
         Event.chatReply Room.agents userId sp.orderId sp.productIndex
           (some c.id) "refund" refundReplyText] := by
  simp only [refundOutcome, hfind]

theorem llmOutcome_state_cases_of_found (env : ChatEnv) (st : ServerState)
    (userId : ℕ) (userName userEmail : String) (sp : SelectedProduct)
    (message : String) (c : Case)
    (hfind : findCase st.cases userId sp.orderId sp.productIndex = some c) :
    (llmOutcome env st userId userName userEmail sp message).state.cases
      = upsertCase { c with
          description := message, priority := llmPriority message,
          domain := sp.domain,
          status := if c.status = Status.resolved then Status.opened
                    else c.status } st.cases := by
  simp only [llmOutcome, hfind]

theorem isAgentOnly_setAgentOnly (caseId : ℕ) (locks : List ℕ) :
    isAgentOnly caseId (setAgentOnly caseId locks) = true := by
  unfold isAgentOnly setAgentOnly
  by_cases h : caseId ∈ locks
  · rw [if_pos h]
    simpa using h
  · rw [if_neg h]
    simp

theorem countMem_cons (id : ℕ) (x : MemRecord) (xs : List MemRecord) :
    countMem id (x :: xs) = (if x.caseId = id then 1 else 0) + countMem id xs := by
  simp only [countMem, List.filter_cons, beq_iff_eq]
  by_cases h : x.caseId = id
  · simp [h, Nat.add_comm]
  · simp [h]

theorem countMem_upsertMem (id : ℕ) (r : MemRecord) (hr : r.caseId = id)
    (store : List MemRecord) (h : countMem id store ≤ 1) :
    countMem id (upsertMem r store) = 1 := by
  subst hr
  induction store with
  | nil => simp [upsertMem, countMem]
  | cons x xs ih =>
      rw [countMem_cons] at h
      by_cases hx : x.caseId = r.caseId
      · rw [if_pos hx] at h
        have hxs : countMem r.caseId xs = 0 := by omega
        simp only [upsertMem, if_pos hx]
        rw [countMem_cons, if_pos rfl, hxs]
      · rw [if_neg hx] at h
        simp only [upsertMem, if_neg hx]
        rw [countMem_cons, if_neg hx]
        have := ih (by omega)
        omega

/-! ## Claim theorems -/

/-- C5, counterexample: `analyzeSentiment "ok"` is labelled `cool`, not
`neutral` as claimed — `"ok"` itself is a calm word (+0.6), which meets the
`≥ 0.6 → cool` threshold exactly. -/
theorem analyzeSentiment_ok_is_cool_not_neutral :
    (analyzeSentiment "ok").label = SentimentLabel.cool ∧
    (analyzeSentiment "ok").label ≠ SentimentLabel.neutral := by
  decide

/-- C5, amended: `analyzeSentiment "please, no hurry"` is labelled `cool`,
`analyzeSentiment "this is a scam, fraud, terrible!!!"` is labelled `angry`,
`analyzeSentiment "ok"` is labelled `cool` (not neutral), and for every
text the label agrees with the thresholds `score ≤ −0.8 → angry`,
`score ≥ 0.6 → cool`, else `neutral`, read off the returned (clamped)
score. -/
theorem analyzeSentiment_examples_and_thresholds :
    (analyzeSentiment "please, no hurry").label = SentimentLabel.cool ∧
    (analyzeSentiment "this is a scam, fraud, terrible!!!").label
        = SentimentLabel.angry ∧
    (analyzeSentiment "ok").label = SentimentLabel.cool ∧
    ∀ text : String,
      (analyzeSentiment text).label =
        (if (analyzeSentiment text).score ≤ -(8/10) then SentimentLabel.angry
         else if (6/10 : ℚ) ≤ (analyzeSentiment text).score then SentimentLabel.cool
         else SentimentLabel.neutral) := by
  refine ⟨by decide, by decide, by decide, fun text => ?_⟩
  simp only [analyzeSentiment]
  by_cases h1 : rawScore10 text ≤ -8
  · rw [if_pos h1, if_pos ((sentimentClamp_le_angry (rawScore10 text)).mpr h1)]
  · rw [if_neg h1,
      if_neg (fun hc => h1 ((sentimentClamp_le_angry (rawScore10 text)).mp hc))]
    by_cases h2 : 6 ≤ rawScore10 text
    · rw [if_pos h2, if_pos ((sentimentClamp_cool_le (rawScore10 text)).mpr h2)]
    · rw [if_neg h2,
        if_neg (fun hc => h2 ((sentimentClamp_cool_le (rawScore10 text)).mp hc))]

/-- C6: `computeSLA` applies first-match precedence — angry → express, then
high priority → express, then cool → batched, else standard — with default
target minutes 15/60/180; in particular the three quoted examples hold. -/
theorem computeSLA_precedence_and_defaults :
    (∀ p : Priority, computeSLA p SentimentLabel.angry = ⟨SLALevel.express, 15⟩) ∧
    (∀ s : SentimentLabel, computeSLA Priority.high s = ⟨SLALevel.express, 15⟩) ∧
    computeSLA Priority.low SentimentLabel.cool = ⟨SLALevel.batched, 180⟩ ∧
    computeSLA Priority.low SentimentLabel.neutral = ⟨SLALevel.standard, 60⟩ ∧
    computeSLA Priority.high SentimentLabel.neutral = ⟨SLALevel.express, 15⟩ :=
  ⟨fun p => by cases p <;> rfl, fun s => by cases s <;> rfl, rfl, rfl, rfl⟩

/-- C7: cosine similarity as implemented returns 1 on identical nonzero
vectors, 0 when the dot product over the shared prefix is 0 (orthogonality),
0 when either accumulated norm is 0, computes over only the shorter length
(truncating both inputs to the common prefix changes nothing — the loop
never reads past `min` of the lengths), and the `caseMemory.js` duplicate
`cosine` agrees with `cosineSimilarity` everywhere. -/
theorem cosineSimilarity_spec :
    (∀ a : List ℝ, (∃ x ∈ a, x ≠ 0) → cosineSimilarity a a = 1) ∧
    (∀ a b : List ℝ, dotProd a b = 0 → cosineSimilarity a b = 0) ∧
    (∀ a b : List ℝ, sumSqFst a b = 0 ∨ sumSqSnd a b = 0 →
      cosineSimilarity a b = 0) ∧
    (∀ a b : List ℝ,
      cosineSimilarity a b =
        cosineSimilarity (a.take (min a.length b.length))
          (b.take (min a.length b.length))) ∧
    (∀ a b : List ℝ, cosine a b = cosineSimilarity a b) := by
  refine ⟨?_, ?_, ?_, ?_, fun a b => rfl⟩
  · intro a ha
    have hS : sumSqFst a a = (a.map (fun x => x * x)).sum := by
      simp [sumSqFst, List.zipWith_same]
    have hS2 : sumSqSnd a a = (a.map (fun x => x * x)).sum := by
      simp [sumSqSnd, List.zipWith_same]
    have hdot : dotProd a a = (a.map (fun x => x * x)).sum := by
      simp [dotProd, List.zipWith_same]
    have hpos := sumSq_sum_pos a ha
    have hne : ¬(sumSqFst a a = 0 ∨ sumSqSnd a a = 0) := by
      rw [hS, hS2]
      rintro (h | h) <;> exact absurd h (ne_of_gt hpos)
    simp only [cosineSimilarity]
    rw [if_neg hne, hdot, hS, hS2, Real.mul_self_sqrt (le_of_lt hpos),
      div_self (ne_of_gt hpos)]
  · intro a b h
    simp only [cosineSimilarity]
    by_cases h0 : sumSqFst a b = 0 ∨ sumSqSnd a b = 0
    · rw [if_pos h0]
    · rw [if_neg h0, h, zero_div]
  · intro a b h
    simp only [cosineSimilarity]
    rw [if_pos h]
  · intro a b
    have hz : ∀ f : ℝ → ℝ → ℝ,
        List.zipWith f (a.take (min a.length b.length))
          (b.take (min a.length b.length)) = List.zipWith f a b := by
      intro f
      rw [← List.take_zipWith]
      have hlen : (List.zipWith f a b).length = min a.length b.length := by
        rw [List.length_zipWith]
      rw [← hlen, List.take_length]
    simp only [cosineSimilarity, dotProd, sumSqFst, sumSqSnd, hz]

/-- Witness for C7 at concrete inputs. -/
theorem cosineSimilarity_spec_witness :
    cosineSimilarity [(1:ℝ)] [(1:ℝ)] = 1 ∧
    cosineSimilarity [(1:ℝ), 0] [(0:ℝ), 1] = 0 ∧
    cosineSimilarity ([] : List ℝ) [(1:ℝ)] = 0 :=
  ⟨cosineSimilarity_spec.1 [1] ⟨1, List.mem_singleton.mpr rfl, one_ne_zero⟩,
   cosineSimilarity_spec.2.1 _ _ (by norm_num [dotProd]),
   cosineSimilarity_spec.2.2.1 _ _ (Or.inl (by norm_num [sumSqFst]))⟩

/-- C8: every internal failure of the FAQ stage — the embedding call, the
database fetch, or any error surfacing from `checkFaqE` — makes `checkFaq`
return `none` rather than propagate, and every internal failure of the
case-memory search makes `searchSimilarCases` return `[]` rather than
propagate. -/
theorem stage_errors_swallowed :
    (∀ (env : FaqEnv) (msg : String) (d : Option Domain) (e : String),
        env.embedResult = Except.error e → checkFaq env msg d = none) ∧
    (∀ (env : FaqEnv) (msg : String) (d : Option Domain) (e : String),
        env.findResult = Except.error e → checkFaq env msg d = none) ∧
    (∀ (env : FaqEnv) (msg : String) (d : Option Domain) (e : String),
        checkFaqE env msg d = Except.error e → checkFaq env msg d = none) ∧
    (∀ (env : MemEnv) (t : String) (d : Option Domain) (k : ℕ) (e : String),
        env.embedResult = Except.error e → searchSimilarCases env t d k = []) ∧
    (∀ (env : MemEnv) (t : String) (d : Option Domain) (k : ℕ) (e : String),
        env.findResult = Except.error e → searchSimilarCases env t d k = []) ∧
    (∀ (env : MemEnv) (t : String) (d : Option Domain) (k : ℕ) (e : String),
        searchSimilarCasesE env t d k = Except.error e →
          searchSimilarCases env t d k = []) := by
  have hfaq : ∀ (env : FaqEnv) (msg : String) (d : Option Domain) (e : String),
      checkFaqE env msg d = Except.error e → checkFaq env msg d = none := by
    intro env msg d e h
    unfold checkFaq
    rw [h]
  have hmem : ∀ (env : MemEnv) (t : String) (d : Option Domain) (k : ℕ) (e : String),
      searchSimilarCasesE env t d k = Except.error e →
        searchSimilarCases env t d k = [] := by
    intro env t d k e h
    unfold searchSimilarCases
    rw [h]
  refine ⟨?_, ?_, hfaq, ?_, ?_, hmem⟩
  · intro env msg d e h
    exact hfaq env msg d e (by unfold checkFaqE; rw [h]; rfl)
  · intro env msg d e h
    rcases hq : env.embedResult with e' | q
    · exact hfaq env msg d e' (by unfold checkFaqE; rw [hq]; rfl)
    · exact hfaq env msg d e (by unfold checkFaqE; simp only [hq, h]; rfl)
  · intro env t d k e h
    exact hmem env t d k e (by unfold searchSimilarCasesE; rw [h]; rfl)
  · intro env t d k e h
    rcases hq : env.embedResult with e' | q
    · exact hmem env t d k e' (by unfold searchSimilarCasesE; rw [hq]; rfl)
    · exact hmem env t d k e (by unfold searchSimilarCasesE; simp only [hq, h]; rfl)

/-- Witness for C8 at a concrete failing environment. -/
theorem stage_errors_swallowed_witness :
    checkFaq ⟨Except.error "embedding down", Except.ok []⟩ "any question" none
        = none ∧
    searchSimilarCases ⟨Except.error "embedding down", Except.ok []⟩
        "any question" none 3 = [] :=
  ⟨stage_errors_swallowed.1 _ "any question" none "embedding down" rfl,
   stage_errors_swallowed.2.2.2.1 _ "any question" none 3 "embedding down" rfl⟩

/-- C9: indexing the same case twice (same id and description, embedding
succeeding) into a store that respects the unique index on `caseId` leaves
exactly one `CaseMemory` record keyed by that case id — the second call
updates instead of duplicating. -/
theorem indexCase_twice_single_record (v : List ℝ) (c : Case)
    (store : List MemRecord) (h : countMem c.id store ≤ 1) :
    countMem c.id (indexCase (Except.ok v) (some c)
        (indexCase (Except.ok v) (some c) store)) = 1 := by
  simp only [indexCase]
  exact countMem_upsertMem c.id _ rfl _
    (le_of_eq (countMem_upsertMem c.id _ rfl _ h))

/-- Witness for C9 at a concrete case and empty store. -/
theorem indexCase_twice_single_record_witness :
    countMem c9Case.id (indexCase (Except.ok [(1:ℝ)]) (some c9Case)
        (indexCase (Except.ok [(1:ℝ)]) (some c9Case) [])) = 1 :=
  indexCase_twice_single_record [(1:ℝ)] c9Case [] (by decide)

/-- C2: while the agent-only lock is set for the existing case of the
conversation key, an inbound user chat message produces no automated reply —
the turn is recorded with a null reply and source `"user"`, the only event
goes to the agent observers, the response is `queued`/`human_agent`, no case
is mutated, and no external stage (FAQ, case-memory, LLM) is consulted.
This holds for every collaborator environment. -/
theorem agent_only_lock_short_circuits
    (env : ChatEnv) (st : ServerState) (userId : ℕ) (userName userEmail : String)
    (sp : SelectedProduct) (message : String) (c : Case)
    (hmsg : message ≠ "")
    (hfind : findCase st.cases userId sp.orderId sp.productIndex = some c)
    (hlock : isAgentOnly c.id st.agentOnly = true) :
    handleChat env st userId userName userEmail (some sp) message =
      { res := ChatResponse.queuedHuman c.id,
        state := { st with chatLog := st.chatLog ++
          [{ prompt := message, reply := none, orderId := sp.orderId,
             productIndex := sp.productIndex, caseId := some c.id,
             source := some "user", score := none }] },
        events := [Event.chatUser Room.agents userId sp.orderId sp.productIndex
            c.id message],
        stages := [] } := by
  simp only [handleChat, hmsg, ensureCase, hfind, hlock, agentOnlyOutcome,
    if_false, if_true, ite_false, ite_true]

/-- Witness for C2 at a concrete locked state. -/
theorem agent_only_lock_short_circuits_witness :
    handleChat missEnv lockedState 7 "Ann" "ann@example.com" (some c3Sp)
        "need more help" =
      { res := ChatResponse.queuedHuman c3Case.id,
        state := { lockedState with chatLog := lockedState.chatLog ++
          [{ prompt := "need more help", reply := none, orderId := c3Sp.orderId,
             productIndex := c3Sp.productIndex, caseId := some c3Case.id,
             source := some "user", score := none }] },
        events := [Event.chatUser Room.agents 7 c3Sp.orderId c3Sp.productIndex
            c3Case.id "need more help"],
        stages := [] } :=
  agent_only_lock_short_circuits missEnv lockedState 7 "Ann" "ann@example.com"
    c3Sp "need more help" c3Case (by decide) (by decide) (by decide)

/-- C1: a message containing a refund keyword, handled while no agent-only
lock is active for its case, takes the refund path for *every* collaborator
environment — in particular ones where the FAQ matcher would exceed its
threshold: the upserted case has priority forced to high, the refund-tagged
description and status open, the response is the fixed escalation reply, a
`chat:reply` tagged `"refund"` is emitted, and no external stage (FAQ
included) is consulted. -/
theorem refund_keyword_takes_refund_path
    (env : ChatEnv) (st : ServerState) (userId : ℕ) (userName userEmail : String)
    (sp : SelectedProduct) (message : String)
    (hmsg : message ≠ "")
    (href : isRefundMsg message = true)
    (hlock : isAgentOnly (ensureCase st userId sp message).1.id
        (ensureCase st userId sp message).2.agentOnly = false) :
    ∃ c : Case,
      (handleChat env st userId userName userEmail (some sp) message).res
          = ChatResponse.refundEscalation refundReplyText
              (computeSLA Priority.high (analyzeSentiment message).label) c.id ∧
      c ∈ (handleChat env st userId userName userEmail (some sp) message).state.cases ∧
      c.priority = Priority.high ∧
      c.description = "[Refund Request] " ++ message ∧
      c.status = Status.opened ∧
      (handleChat env st userId userName userEmail (some sp) message).stages = [] ∧
      Event.chatReply (Room.user userId) userId sp.orderId sp.productIndex
          (some c.id) "refund" refundReplyText
        ∈ (handleChat env st userId userName userEmail (some sp) message).events := by
  have hfind := ensureCase_find st userId sp message
  have hred : handleChat env st userId userName userEmail (some sp) message
      = refundOutcome env (ensureCase st userId sp message).2 userId sp message := by
    simp only [handleChat, hmsg, href, hlock, if_false, if_true, ite_false,
      ite_true, Bool.false_eq_true]
  rw [hred, refundOutcome_res_of_found _ _ _ _ _ _ hfind,
    refundOutcome_state_cases_of_found _ _ _ _ _ _ hfind,
    refundOutcome_stages, refundOutcome_events_of_found _ _ _ _ _ _ hfind]
  refine ⟨{ (ensureCase st userId sp message).1 with
      description := "[Refund Request] " ++ message, priority := Priority.high,
      domain := sp.domain, status := Status.opened },
    rfl, mem_upsertCase _ _, rfl, rfl, rfl, rfl, ?_⟩
  exact List.mem_cons_self _ _

/-- Witness for C1: a refund message on a fresh conversation, in an
environment whose FAQ matcher holds a maximal-score hit. -/
theorem refund_keyword_takes_refund_path_witness :
    ∃ c : Case,
      (handleChat c3Env emptyState 7 "Ann" "ann@example.com" (some c3Sp)
          "i want a refund").res
          = ChatResponse.refundEscalation refundReplyText
              (computeSLA Priority.high
                (analyzeSentiment "i want a refund").label) c.id ∧
      c ∈ (handleChat c3Env emptyState 7 "Ann" "ann@example.com" (some c3Sp)
          "i want a refund").state.cases ∧
      c.priority = Priority.high ∧
      c.description = "[Refund Request] " ++ "i want a refund" ∧
      c.status = Status.opened ∧
      (handleChat c3Env emptyState 7 "Ann" "ann@example.com" (some c3Sp)
          "i want a refund").stages = [] ∧
      Event.chatReply (Room.user 7) 7 c3Sp.orderId c3Sp.productIndex
          (some c.id) "refund" refundReplyText
        ∈ (handleChat c3Env emptyState 7 "Ann" "ann@example.com" (some c3Sp)
          "i want a refund").events :=
  refund_keyword_takes_refund_path c3Env emptyState 7 "Ann" "ann@example.com"
    c3Sp "i want a refund" (by decide) (by decide) (by decide)

/-- C10: when a refund-keyword message is handled with no active lock and an
existing case is found, the refund stage overwrites that case's description,
priority, domain and status unconditionally — status becomes open whatever
it was before (an in-progress case is downgraded), priority becomes high,
the description becomes the refund-tagged text. -/
theorem refund_overwrites_existing_case
    (env : ChatEnv) (st : ServerState) (userId : ℕ) (userName userEmail : String)
    (sp : SelectedProduct) (message : String) (c : Case)
    (hmsg : message ≠ "")
    (hfind : findCase st.cases userId sp.orderId sp.productIndex = some c)
    (hlock : isAgentOnly c.id st.agentOnly = false)
    (href : isRefundMsg message = true) :
    (handleChat env st userId userName userEmail (some sp) message).state.cases
      = upsertCase { c with
          description := "[Refund Request] " ++ message,
          priority := Priority.high, domain := sp.domain,
          status := Status.opened } st.cases ∧
    (handleChat env st userId userName userEmail (some sp) message).res
      = ChatResponse.refundEscalation refundReplyText
          (computeSLA Priority.high (analyzeSentiment message).label) c.id := by
  have hred : handleChat env st userId userName userEmail (some sp) message
      = refundOutcome env st userId sp message := by
    simp only [handleChat, hmsg, ensureCase, hfind, hlock, href, if_false,
      if_true, ite_false, ite_true, Bool.false_eq_true]
  rw [hred]
  exact ⟨refundOutcome_state_cases_of_found _ _ _ _ _ _ hfind,
    refundOutcome_res_of_found _ _ _ _ _ _ hfind⟩

/-- Witness for C10: the refund stage downgrades an in-progress case to
open while overwriting its fields. -/
theorem refund_overwrites_existing_case_witness :
    (handleChat missEnv c10State 2 "Bo" "bo@example.com" (some c10Sp)
        "please refund me").state.cases
      = upsertCase { c10Case with
            description := "[Refund Request] " ++ "please refund me",
            priority := Priority.high, domain := c10Sp.domain,
            status := Status.opened } c10State.cases ∧
    (handleChat missEnv c10State 2 "Bo" "bo@example.com" (some c10Sp)
        "please refund me").res
      = ChatResponse.refundEscalation refundReplyText
          (computeSLA Priority.high
            (analyzeSentiment "please refund me").label) c10Case.id :=
  refund_overwrites_existing_case missEnv c10State 2 "Bo" "bo@example.com"
    c10Sp "please refund me" c10Case (by decide) (by decide) (by decide)
    (by decide)

/-- C3, counterexample: a resolved case receiving a new user message that
the FAQ matcher answers stays resolved — the FAQ stage mutates no case, so
the claimed unconditional `resolved → open` transition does not happen. -/
theorem resolved_case_faq_hit_stays_resolved :
    (handleChat c3Env c3State 7 "Ann" "ann@example.com" (some c3Sp)
        "hello").state.cases = [c3Case] ∧
    c3Case.status = Status.resolved ∧
    (handleChat c3Env c3State 7 "Ann" "ann@example.com" (some c3Sp)
        "hello").res = ChatResponse.faqAnswer "Here is the FAQ answer." 1 := by
  decide

/-- C3, amended: a resolved case receiving a new non-agent message
transitions back to open exactly on the paths that upsert the case — the
refund stage and the generative (LLM) fallback (i.e. whenever the message
has a refund keyword, or the FAQ and case-memory stages both miss); FAQ or
case-memory answers leave the case record, including its resolved status,
untouched. -/
theorem resolved_case_reopens_on_refund_or_llm
    (env : ChatEnv) (st : ServerState) (userId : ℕ) (userName userEmail : String)
    (sp : SelectedProduct) (message : String) (c : Case)
    (hmsg : message ≠ "")
    (hfind : findCase st.cases userId sp.orderId sp.productIndex = some c)
    (hres : c.status = Status.resolved)
    (hlock : isAgentOnly c.id st.agentOnly = false)
    (hstage : isRefundMsg message = true ∨
      (env.faq = none ∧ memTop env.memory = none)) :
    ∃ c' : Case, c'.id = c.id ∧ c'.status = Status.opened ∧
      (handleChat env st userId userName userEmail (some sp) message).state.cases
        = upsertCase c' st.cases := by
  by_cases hrefund : isRefundMsg message = true
  · have hred : handleChat env st userId userName userEmail (some sp) message
        = refundOutcome env st userId sp message := by
      simp only [handleChat, hmsg, ensureCase, hfind, hlock, hrefund, if_false,
        if_true, ite_false, ite_true, Bool.false_eq_true]
    refine ⟨{ c with
        description := "[Refund Request] " ++ message,
        priority := Priority.high, domain := sp.domain,
        status := Status.opened }, rfl, rfl, ?_⟩
    rw [hred]
    exact refundOutcome_state_cases_of_found _ _ _ _ _ _ hfind
  · have hrf : isRefundMsg message = false := by
      cases h : isRefundMsg message
      · rfl
      · exact absurd h hrefund
    rcases hstage with href | ⟨hfaq, hmem⟩
    · exact absurd href hrefund
    · have hred : handleChat env st userId userName userEmail (some sp) message
          = llmOutcome env st userId userName userEmail sp message := by
        simp only [handleChat, hmsg, ensureCase, hfind, hlock, hrf, hfaq, hmem,
          if_false, if_true, ite_false, ite_true, Bool.false_eq_true]
      refine ⟨{ c with
          description := message, priority := llmPriority message,
          domain := sp.domain,
          status := if c.status = Status.resolved then Status.opened
                    else c.status }, rfl, by simp [hres], ?_⟩
      rw [hred]
      exact llmOutcome_state_cases_of_found _ _ _ _ _ _ _ _ hfind

/-- Witness for the amended C3: a resolved case reopened by the generative
fallback when every earlier stage misses. -/
theorem resolved_case_reopens_on_refund_or_llm_witness :
    ∃ c' : Case, c'.id = c3Case.id ∧ c'.status = Status.opened ∧
      (handleChat missEnv c3State 7 "Ann" "ann@example.com" (some c3Sp)
          "hello").state.cases = upsertCase c' c3State.cases :=
  resolved_case_reopens_on_refund_or_llm missEnv c3State 7 "Ann"
    "ann@example.com" c3Sp "hello" c3Case (by decide) (by decide) (by decide)
    (by decide) (Or.inr ⟨rfl, rfl⟩)

/-- C4, counterexample: posting an agent response to a resolved case does
*not* leave the status resolved — `findByIdAndUpdate` sets
`status: "in-progress"` unconditionally. -/
theorem agent_response_resolved_case_not_kept_resolved :
    (postCaseResponse c4State 5 9 "We checked your order.").1
      = RespResult.responseAdded { c4Case with
          responses := [⟨some 5, "We checked your order."⟩],
          status := Status.inProgress } ∧
    Status.inProgress ≠ Status.resolved := by
  decide

/-- C4, amended: posting an agent response to an existing case appends the
response and sets the status to in-progress unconditionally — also when the
case was already resolved — and sets (or renews) the agent-only lock. -/
theorem agent_response_appends_and_forces_in_progress
    (st : ServerState) (adminId caseId : ℕ) (message : String) (c : Case)
    (hmsg : message ≠ "")
    (hfind : st.cases.find? (fun x => x.id == caseId) = some c) :
    (postCaseResponse st adminId caseId message).1
        = RespResult.responseAdded { c with
            responses := c.responses ++ [⟨some adminId, message⟩],
            status := Status.inProgress } ∧
    (postCaseResponse st adminId caseId message).2.1.cases
        = upsertCase { c with
            responses := c.responses ++ [⟨some adminId, message⟩],
            status := Status.inProgress } st.cases ∧
    isAgentOnly c.id (postCaseResponse st adminId caseId message).2.1.agentOnly
        = true := by
  unfold postCaseResponse
  rw [if_neg hmsg, hfind]
  exact ⟨rfl, rfl, isAgentOnly_setAgentOnly c.id st.agentOnly⟩

/-- Witness for the amended C4: a response posted to the resolved `c4Case`. -/
theorem agent_response_appends_and_forces_in_progress_witness :
    (postCaseResponse c4State 5 9 "We are on it.").1
        = RespResult.responseAdded { c4Case with
            responses := c4Case.responses ++ [⟨some 5, "We are on it."⟩],
            status := Status.inProgress } ∧
    (postCaseResponse c4State 5 9 "We are on it.").2.1.cases
        = upsertCase { c4Case with
            responses := c4Case.responses ++ [⟨some 5, "We are on it."⟩],
            status := Status.inProgress } c4State.cases ∧
    isAgentOnly c4Case.id (postCaseResponse c4State 5 9 "We are on it.").2.1.agentOnly
        = true :=
  agent_response_appends_and_forces_in_progress c4State 5 9 "We are on it."
    c4Case (by decide) (by decide)

end Triage
